import Mathlib

/-!
Verification of the Egyptian national-ID extraction core
(`src/utils.py` of the OCR_Egyptian_ID repository).

The Python source is shallowly embedded: every pure helper of
`utils.py` becomes an executable Lean definition, and the external
capabilities (YOLO detectors, EasyOCR, `cv2.imread`) are abstracted as
data supplied through an environment record, so that the control flow
of `detect_and_process_id_card` and `process_fields` is modelled
exactly while the opaque model inference stays a parameter.

Machine integers are modelled as `Int` (Python ints are unbounded),
the float `scale` parameter as `ℚ` with explicit truncation for the
`int(...)` cast, and fallible parsing as `Option`.
-/

/-- Whitespace characters accepted by Python `int(str)` around the number
(ASCII fragment of `str.strip` whitespace). -/
def isPyWs (c : Char) : Bool :=
  c == ' ' || c == '\t' || c == '\n' || c == '\r' || c == '\x0b' || c == '\x0c'

/-- Numeric value of an ASCII digit character, as used by Python when
parsing a digit (the code point minus 48). -/
def digitValI (c : Char) : Int :=
  (c.toNat : Int) - 48

/-- Value of a list of ASCII digit characters read in base 10 (the value
Python `int` assigns to a digit string). -/
def natVal (l : List Char) : Int :=
  l.foldl (fun a c => 10 * a + digitValI c) 0

/-- Model of Python `int(s)` on ASCII strings: optional surrounding
whitespace, an optional single sign directly followed by a nonempty run of
ASCII digits, and nothing else; any other shape raises `ValueError`,
modelled as `none`.  (Underscore digit separators need at least three
characters and the decoder only ever parses one- and two-character slices,
so they are omitted; non-ASCII digits are outside the model.) -/
def pyInt (s : String) : Option Int :=
  let cs := s.data.dropWhile isPyWs
  let sign : Int := if cs.head? = some '-' then -1 else 1
  let body := if cs.head? = some '+' ∨ cs.head? = some '-' then cs.tail else cs
  let digs := body.takeWhile Char.isDigit
  let rest := body.dropWhile Char.isDigit
  if digs ≠ [] ∧ rest.all isPyWs then some (sign * natVal digs) else none

/-- Model of the Python slice `s[a:b]` for `0 ≤ a ≤ b`. -/
def pySlice (s : String) (a b : Nat) : String :=
  ⟨(s.data.drop a).take (b - a)⟩

/-- Model of Python `f"{n:0wd}"`: decimal rendering left-padded with zeros
to width `w`, the sign counting towards the width. -/
def pyFmtZeroPad (w : Nat) (n : Int) : String :=
  if n < 0 then
    let digs := toString (-n).toNat
    "-" ++ ⟨List.replicate (w - 1 - digs.length) '0'⟩ ++ digs
  else
    let digs := toString n.toNat
    ⟨List.replicate (w - digs.length) '0'⟩ ++ digs

/-- The record returned by `decode_egyptian_id`
(`{'Birth Date': …, 'Governorate': …, 'Gender': …}`). -/
structure DecodedIdentity where
  birthDate : String
  governorate : String
  gender : String
deriving DecidableEq, Repr

/-- The record both failure branches of `decode_egyptian_id` return. -/
def failRecord : DecodedIdentity := ⟨"", "", ""⟩

/-- The static governorate table of `decode_egyptian_id`
(`utils.py` lines 63-71), in source order. -/
def governorates : List (String × String) :=
  [("01", "Cairo"), ("02", "Alexandria"), ("03", "Port Said"), ("04", "Suez"),
   ("11", "Damietta"), ("12", "Dakahlia"), ("13", "Ash Sharqia"), ("14", "Kaliobeya"),
   ("15", "Kafr El - Sheikh"), ("16", "Gharbia"), ("17", "Monoufia"), ("18", "El Beheira"),
   ("19", "Ismailia"), ("21", "Giza"), ("22", "Beni Suef"), ("23", "Fayoum"),
   ("24", "El Menia"), ("25", "Assiut"), ("26", "Sohag"), ("27", "Qena"),
   ("28", "Aswan"), ("29", "Luxor"), ("31", "Red Sea"), ("32", "New Valley"),
   ("33", "Matrouh"), ("34", "North Sinai"), ("35", "South Sinai"), ("88", "Foreign")]

/-- Model of `governorates.get(code, "Unknown")`. -/
def lookupGov (code : String) : String :=
  ((governorates.find? (fun p => p.1 == code)).map Prod.snd).getD "Unknown"

/-- Embedding of `decode_egyptian_id` (`utils.py` lines 58-81).  The guard
models `if not id_number or len(id_number) != 14`; the `match` models the
`try` block, any failing `int(...)` conversion landing in the
`except (ValueError, IndexError)` branch. -/
def decode_egyptian_id (id_number : String) : DecodedIdentity :=
  if id_number = "" ∨ id_number.data.length ≠ 14 then failRecord
  else
    match pyInt (pySlice id_number 0 1), pyInt (pySlice id_number 1 3),
          pyInt (pySlice id_number 3 5), pyInt (pySlice id_number 5 7),
          pyInt (pySlice id_number 12 13) with
    | some century_digit, some year, some month, some day, some gender_code =>
      let governorate_code := pySlice id_number 7 9
      let full_year := (if century_digit = 2 then 1900 else 2000) + year
      let gender := if gender_code % 2 ≠ 0 then "Male" else "Female"
      let governorate := lookupGov governorate_code
      let birth_date :=
        pyFmtZeroPad 4 full_year ++ "-" ++ pyFmtZeroPad 2 month ++ "-" ++ pyFmtZeroPad 2 day
      ⟨birth_date, governorate, gender⟩
    | _, _, _, _, _ => failRecord

/-- The five `int(...)` conversions `decode_egyptian_id` performs; the
`except` branch fires exactly when one of them fails. -/
def parseFailure (s : String) : Prop :=
  pyInt (pySlice s 0 1) = none ∨ pyInt (pySlice s 1 3) = none ∨
  pyInt (pySlice s 3 5) = none ∨ pyInt (pySlice s 5 7) = none ∨
  pyInt (pySlice s 12 13) = none

/-- A bounding box `[x1, y1, x2, y2]` in pixel coordinates (the source
passes these around as 4-element integer lists). -/
structure Bbox where
  x1 : Int
  y1 : Int
  x2 : Int
  y2 : Int
deriving DecidableEq, Repr

/-- Model of Python `int(q)` on a real value: truncation toward zero. -/
def pyIntTrunc (q : ℚ) : Int :=
  q.num.tdiv q.den

/-- Embedding of `expand_bbox_height` (`utils.py` lines 34-42).  Python
`//` is floor division, modelled by `Int.fdiv`; `image_shape.1` is
`image_shape[0]`, the image height. -/
def expand_bbox_height (bbox : Bbox) (scale : ℚ) (image_shape : Int × Int) : Bbox :=
  let height := bbox.y2 - bbox.y1
  let center_y := bbox.y1 + height.fdiv 2
  let new_height := pyIntTrunc ((height : ℚ) * scale)
  let new_y1 := max (center_y - new_height.fdiv 2) 0
  let new_y2 := min (center_y + new_height.fdiv 2) image_shape.1
  ⟨bbox.x1, new_y1, bbox.x2, new_y2⟩

/-- Embedding of the assembly step of `detect_national_id_digits`
(`utils.py` lines 44-56): the digit detector's raw output is abstracted
as the list of `(cls, x1)` pairs the loop collects, which the function
then sorts by `x1` and joins.  Python `list.sort` is stable, so any
stable sort by the same key — here Mathlib's insertion sort — produces
the identical list. -/
def detect_national_id_digits (detected_info : List (Nat × Int)) : String :=
  let sorted := List.insertionSort (fun a b : Nat × Int => a.2 ≤ b.2) detected_info
  String.join (sorted.map (fun p => toString p.1))

/-- Model of Python `str.strip()` (ASCII whitespace fragment): drop
whitespace from both ends. -/
def pyStrip (s : String) : String :=
  ⟨((s.data.dropWhile isPyWs).reverse.dropWhile isPyWs).reverse⟩

/-- A field detection `(class_name, bbox)` as produced by the field
detector inside `process_fields`. -/
structure FieldDet where
  className : String
  bbox : Bbox
deriving DecidableEq, Repr

/-- The environment abstracting the external capabilities used by one
call of `detect_and_process_id_card`: whether `cv2.imread` succeeded,
the card-detector boxes, the field-detector detections on the card crop,
the EasyOCR result for a region (`extract_text`), and the digit
detector's `(cls, x1)` output on a region. -/
structure PipelineEnv where
  imread_ok : Bool
  card_boxes : List Bbox
  field_dets : List FieldDet
  read_text : Bbox → String
  digit_dets : Bbox → List (Nat × Int)

/-- The tuple returned by `process_fields`:
`(first_name, second_name, full_name, nid, address)`. -/
structure FieldsResult where
  first_name : String
  second_name : String
  full_name : String
  nid : String
  address : String
deriving DecidableEq, Repr

/-- The 8-tuple returned by `detect_and_process_id_card`. -/
structure ExtractionResult where
  first_name : String
  second_name : String
  full_name : String
  nid : String
  address : String
  birth : String
  gov : String
  gender : String
deriving DecidableEq, Repr

/-- The all-empty record initialised at the top of
`detect_and_process_id_card`. -/
def emptyExtraction : ExtractionResult := ⟨"", "", "", "", "", "", "", ""⟩

/-- Embedding of `process_fields` (`utils.py` lines 85-115): iterate over
the field detections in order (later detections of the same label
overwrite earlier ones), dispatch on the class name, and for the `nid`
region expand the box by the default scale `1.5`, run the digit detector
on the expanded crop and assemble the digits.  `cropShape` is
`cropped_image.shape`, i.e. `(height, width)` of the card crop. -/
def process_fields (env : PipelineEnv) (cropShape : Int × Int) : FieldsResult :=
  let step : String × String × String × String → FieldDet → String × String × String × String :=
    fun acc det =>
      if det.className = "firstName" then (env.read_text det.bbox, acc.2.1, acc.2.2.1, acc.2.2.2)
      else if det.className = "lastName" then (acc.1, env.read_text det.bbox, acc.2.2.1, acc.2.2.2)
      else if det.className = "address" then (acc.1, acc.2.1, env.read_text det.bbox, acc.2.2.2)
      else if det.className = "nid" then
        (acc.1, acc.2.1, acc.2.2.1,
          detect_national_id_digits
            (env.digit_dets (expand_bbox_height det.bbox (3 / 2) cropShape)))
      else acc
  let r := env.field_dets.foldl step ("", "", "", "")
  ⟨r.1, r.2.1, pyStrip (r.1 ++ " " ++ r.2.1), r.2.2.2, r.2.2.1⟩

/-- Pixel area of a box, the key of the `max(...)` call selecting the
card box (`utils.py` line 144). -/
def area (b : Bbox) : Int :=
  (b.x2 - b.x1) * (b.y2 - b.y1)

/-- Model of `max(id_card_results[0].boxes, key=area)`: Python `max`
keeps the first element and replaces it only on a strictly larger key,
so the first box of maximal area is selected. -/
def maxCardBox (b : Bbox) (rest : List Bbox) : Bbox :=
  rest.foldl (fun acc c => if area acc < area c then c else acc) b

/-- Embedding of `detect_and_process_id_card` (`utils.py` lines 117-160):
unreadable image → all-empty record; no card boxes → all-empty record;
otherwise crop the largest box, extract the fields and decode the
assembled id.  The crop of box `(x1,y1,x2,y2)` has shape
`(y2-y1, x2-x1)`.  The Python `try` is modelled away: every callee is
total, and both failure checks return the empty record rather than
raising, so no error leaves the function.  The `is None` early returns
for unloaded models are not modelled: the environment always supplies the
detector outputs, matching a deployment where loading succeeded. -/
def detect_and_process_id_card (env : PipelineEnv) : ExtractionResult :=
  match env.imread_ok, env.card_boxes with
  | false, _ => emptyExtraction
  | true, [] => emptyExtraction
  | true, b :: rest =>
    let best := maxCardBox b rest
    let fields := process_fields env (best.y2 - best.y1, best.x2 - best.x1)
    let decoded := decode_egyptian_id fields.nid
    ⟨fields.first_name, fields.second_name, fields.full_name, fields.nid, fields.address,
      decoded.birthDate, decoded.governorate, decoded.gender⟩

/-! ### Helper lemmas about the Python `int` model -/

lemma isPyWs_eq_false_of_isDigit {c : Char} (h : c.isDigit = true) : isPyWs c = false := by
  rcases eq_or_ne c ' ' with rfl | h1
  · simp at h
  rcases eq_or_ne c '\t' with rfl | h2
  · simp at h
  rcases eq_or_ne c '\n' with rfl | h3
  · simp at h
  rcases eq_or_ne c '\r' with rfl | h4
  · simp at h
  rcases eq_or_ne c '\x0b' with rfl | h5
  · simp at h
  rcases eq_or_ne c '\x0c' with rfl | h6
  · simp at h
  simp [isPyWs, h1, h2, h3, h4, h5, h6]

lemma ne_plus_of_isDigit {c : Char} (h : c.isDigit = true) : c ≠ '+' := by
  rintro rfl; simp at h

lemma ne_minus_of_isDigit {c : Char} (h : c.isDigit = true) : c ≠ '-' := by
  rintro rfl; simp at h

lemma takeWhile_eq_self_of_all {p : Char → Bool} :
    ∀ l : List Char, (∀ c ∈ l, p c = true) → l.takeWhile p = l := by
  intro l h
  induction l with
  | nil => rfl
  | cons c cs ih =>
    rw [List.takeWhile_cons, if_pos (h c (List.mem_cons_self c cs))]
    rw [ih (fun d hd => h d (List.mem_cons_of_mem c hd))]

lemma dropWhile_eq_nil_of_all {p : Char → Bool} :
    ∀ l : List Char, (∀ c ∈ l, p c = true) → l.dropWhile p = [] := by
  intro l h
  induction l with
  | nil => rfl
  | cons c cs ih =>
    rw [List.dropWhile_cons, if_pos (h c (List.mem_cons_self c cs))]
    exact ih (fun d hd => h d (List.mem_cons_of_mem c hd))

/-- Python `int` on a nonempty all-digit string yields its base-10 value. -/
lemma pyInt_digits (l : List Char) (hne : l ≠ [])
    (hall : ∀ c ∈ l, c.isDigit = true) : pyInt ⟨l⟩ = some (natVal l) := by
  obtain ⟨c, cs, rfl⟩ := List.exists_cons_of_ne_nil hne
  have hc : c.isDigit = true := hall c (List.mem_cons_self c cs)
  have hdrop : (c :: cs).dropWhile isPyWs = c :: cs := by
    rw [List.dropWhile_cons, if_neg]
    rw [isPyWs_eq_false_of_isDigit hc]
    simp
  unfold pyInt
  simp only [hdrop, List.head?_cons, Option.some.injEq]
  rw [if_neg (ne_minus_of_isDigit hc)]
  rw [if_neg (show ¬(c = '+' ∨ c = '-') by
    rintro (h | h); exacts [ne_plus_of_isDigit hc h, ne_minus_of_isDigit hc h])]
  rw [takeWhile_eq_self_of_all _ hall, dropWhile_eq_nil_of_all _ hall]
  rw [if_pos ⟨List.cons_ne_nil c cs, rfl⟩, one_mul]

/-! ### Computing the decoder on an arbitrary 14-digit string -/

lemma exists_fourteen_chars (l : List Char) (h : l.length = 14) :
    ∃ c0 c1 c2 c3 c4 c5 c6 c7 c8 c9 c10 c11 c12 c13 : Char,
      l = [c0, c1, c2, c3, c4, c5, c6, c7, c8, c9, c10, c11, c12, c13] := by
  rcases l with _ | ⟨c0, l⟩; · simp at h
  rcases l with _ | ⟨c1, l⟩; · simp at h
  rcases l with _ | ⟨c2, l⟩; · simp at h
  rcases l with _ | ⟨c3, l⟩; · simp at h
  rcases l with _ | ⟨c4, l⟩; · simp at h
  rcases l with _ | ⟨c5, l⟩; · simp at h
  rcases l with _ | ⟨c6, l⟩; · simp at h
  rcases l with _ | ⟨c7, l⟩; · simp at h
  rcases l with _ | ⟨c8, l⟩; · simp at h
  rcases l with _ | ⟨c9, l⟩; · simp at h
  rcases l with _ | ⟨c10, l⟩; · simp at h
  rcases l with _ | ⟨c11, l⟩; · simp at h
  rcases l with _ | ⟨c12, l⟩; · simp at h
  rcases l with _ | ⟨c13, l⟩; · simp at h
  rcases l with _ | ⟨c14, l⟩
  · exact ⟨c0, c1, c2, c3, c4, c5, c6, c7, c8, c9, c10, c11, c12, c13, rfl⟩
  · simp at h

/-- What `decode_egyptian_id` computes on an explicit string of 14 digit
characters: the guard passes, every `int(...)` conversion succeeds, and
the record is assembled from the year/month/day/governorate/gender
slices. -/
lemma decode_digits (c0 c1 c2 c3 c4 c5 c6 c7 c8 c9 c10 c11 c12 c13 : Char)
    (h : ∀ c ∈ [c0, c1, c2, c3, c4, c5, c6, c7, c8, c9, c10, c11, c12, c13], c.isDigit = true) :
    decode_egyptian_id ⟨[c0, c1, c2, c3, c4, c5, c6, c7, c8, c9, c10, c11, c12, c13]⟩ =
      ⟨pyFmtZeroPad 4 ((if natVal [c0] = 2 then 1900 else 2000) + natVal [c1, c2]) ++ "-" ++
          pyFmtZeroPad 2 (natVal [c3, c4]) ++ "-" ++ pyFmtZeroPad 2 (natVal [c5, c6]),
        lookupGov ⟨[c7, c8]⟩,
        if natVal [c12] % 2 ≠ 0 then "Male" else "Female"⟩ := by
  have h0 : c0.isDigit = true := h c0 (by simp)
  have h1 : c1.isDigit = true := h c1 (by simp)
  have h2 : c2.isDigit = true := h c2 (by simp)
  have h3 : c3.isDigit = true := h c3 (by simp)
  have h4 : c4.isDigit = true := h c4 (by simp)
  have h5 : c5.isDigit = true := h c5 (by simp)
  have h6 : c6.isDigit = true := h c6 (by simp)
  have h12 : c12.isDigit = true := h c12 (by simp)
  unfold decode_egyptian_id
  rw [if_neg (by simp [String.ext_iff])]
  have e0 : pyInt (pySlice ⟨[c0, c1, c2, c3, c4, c5, c6, c7, c8, c9, c10, c11, c12, c13]⟩ 0 1) =
      some (natVal [c0]) :=
    pyInt_digits [c0] (by simp)
      (by intro x hx; simp at hx; rcases hx with rfl; exact h0)
  have e1 : pyInt (pySlice ⟨[c0, c1, c2, c3, c4, c5, c6, c7, c8, c9, c10, c11, c12, c13]⟩ 1 3) =
      some (natVal [c1, c2]) :=
    pyInt_digits [c1, c2] (by simp)
      (by intro x hx; simp at hx; rcases hx with rfl | rfl; exacts [h1, h2])
  have e3 : pyInt (pySlice ⟨[c0, c1, c2, c3, c4, c5, c6, c7, c8, c9, c10, c11, c12, c13]⟩ 3 5) =
      some (natVal [c3, c4]) :=
    pyInt_digits [c3, c4] (by simp)
      (by intro x hx; simp at hx; rcases hx with rfl | rfl; exacts [h3, h4])
  have e5 : pyInt (pySlice ⟨[c0, c1, c2, c3, c4, c5, c6, c7, c8, c9, c10, c11, c12, c13]⟩ 5 7) =
      some (natVal [c5, c6]) :=
    pyInt_digits [c5, c6] (by simp)
      (by intro x hx; simp at hx; rcases hx with rfl | rfl; exacts [h5, h6])
  have e12 : pyInt (pySlice ⟨[c0, c1, c2, c3, c4, c5, c6, c7, c8, c9, c10, c11, c12, c13]⟩ 12 13) =
      some (natVal [c12]) :=
    pyInt_digits [c12] (by simp)
      (by intro x hx; simp at hx; rcases hx with rfl; exact h12)
  rw [e0, e1, e3, e5, e12]
  rfl

lemma append_dash_ne_empty (a b c : String) : a ++ "-" ++ b ++ "-" ++ c ≠ "" := by
  intro hcon
  have hlen := congrArg String.length hcon
  have hone : ("-" : String).length = 1 := rfl
  simp only [String.length_append, hone] at hlen
  rw [show ("" : String).length = 0 from rfl] at hlen
  omega

/-- `decode_egyptian_id` returns the failure record exactly when the
length guard fires or one of the five `int(...)` conversions fails. -/
lemma decode_fail_iff (s : String) :
    decode_egyptian_id s = failRecord ↔ (s.data.length ≠ 14 ∨ parseFailure s) := by
  by_cases hg : s = "" ∨ s.data.length ≠ 14
  · constructor
    · intro _
      left
      rcases hg with rfl | hl
      · simp
      · exact hl
    · intro _
      unfold decode_egyptian_id
      rw [if_pos hg]
  · have hguard := hg
    push_neg at hg
    obtain ⟨hne, hl⟩ := hg
    cases e0 : pyInt (pySlice s 0 1) with
    | none =>
      have hval : decode_egyptian_id s = failRecord := by
        unfold decode_egyptian_id; rw [if_neg hguard, e0]
      rw [hval]
      simp [parseFailure, e0]
    | some a0 =>
    cases e1 : pyInt (pySlice s 1 3) with
    | none =>
      have hval : decode_egyptian_id s = failRecord := by
        unfold decode_egyptian_id; rw [if_neg hguard, e0, e1]
      rw [hval]
      simp [parseFailure, e1]
    | some a1 =>
    cases e3 : pyInt (pySlice s 3 5) with
    | none =>
      have hval : decode_egyptian_id s = failRecord := by
        unfold decode_egyptian_id; rw [if_neg hguard, e0, e1, e3]
      rw [hval]
      simp [parseFailure, e3]
    | some a3 =>
    cases e5 : pyInt (pySlice s 5 7) with
    | none =>
      have hval : decode_egyptian_id s = failRecord := by
        unfold decode_egyptian_id; rw [if_neg hguard, e0, e1, e3, e5]
      rw [hval]
      simp [parseFailure, e5]
    | some a5 =>
    cases e12 : pyInt (pySlice s 12 13) with
    | none =>
      have hval : decode_egyptian_id s = failRecord := by
        unfold decode_egyptian_id; rw [if_neg hguard, e0, e1, e3, e5, e12]
      rw [hval]
      simp [parseFailure, e12]
    | some a12 =>
      have hval : decode_egyptian_id s =
          ⟨pyFmtZeroPad 4 ((if a0 = 2 then 1900 else 2000) + a1) ++ "-" ++
              pyFmtZeroPad 2 a3 ++ "-" ++ pyFmtZeroPad 2 a5,
            lookupGov (pySlice s 7 9),
            if a12 % 2 ≠ 0 then "Male" else "Female"⟩ := by
        unfold decode_egyptian_id; rw [if_neg hguard, e0, e1, e3, e5, e12]
      rw [hval]
      constructor
      · intro hrec
        exfalso
        have hb := congrArg DecodedIdentity.birthDate hrec
        exact append_dash_ne_empty _ _ _ hb
      · rintro (hl14 | hpf)
        · exact absurd hl hl14
        · rcases hpf with hx | hx | hx | hx | hx <;> simp_all

/-! ### Claim theorems -/

/-- C1: for every 14-character all-digit input string, `decode_egyptian_id`
returns a birth date `YYYY-MM-DD` (zero-padded) whose year is
`1900 + digits[1:3]` when the century digit is 2 and `2000 + digits[1:3]`
when it is 3, a governorate equal to the static table lookup of
`digits[7:9]`, and gender `"Male"` for an odd gender digit and `"Female"`
for an even one. -/
theorem decode_valid_digit_string (s : String) (hlen : s.data.length = 14)
    (hdig : ∀ c ∈ s.data, c.isDigit = true) :
    (natVal (pySlice s 0 1).data = 2 →
      (decode_egyptian_id s).birthDate =
        pyFmtZeroPad 4 (1900 + natVal (pySlice s 1 3).data) ++ "-" ++
          pyFmtZeroPad 2 (natVal (pySlice s 3 5).data) ++ "-" ++
          pyFmtZeroPad 2 (natVal (pySlice s 5 7).data)) ∧
    (natVal (pySlice s 0 1).data = 3 →
      (decode_egyptian_id s).birthDate =
        pyFmtZeroPad 4 (2000 + natVal (pySlice s 1 3).data) ++ "-" ++
          pyFmtZeroPad 2 (natVal (pySlice s 3 5).data) ++ "-" ++
          pyFmtZeroPad 2 (natVal (pySlice s 5 7).data)) ∧
    (decode_egyptian_id s).governorate = lookupGov (pySlice s 7 9) ∧
    (natVal (pySlice s 12 13).data % 2 = 1 → (decode_egyptian_id s).gender = "Male") ∧
    (natVal (pySlice s 12 13).data % 2 = 0 → (decode_egyptian_id s).gender = "Female") := by
  rcases s with ⟨d⟩
  obtain ⟨c0, c1, c2, c3, c4, c5, c6, c7, c8, c9, c10, c11, c12, c13, rfl⟩ :=
    exists_fourteen_chars d hlen
  rw [decode_digits c0 c1 c2 c3 c4 c5 c6 c7 c8 c9 c10 c11 c12 c13 hdig]
  refine ⟨?_, ?_, rfl, ?_, ?_⟩
  · intro h
    have h2 : natVal [c0] = 2 := h
    show pyFmtZeroPad 4 ((if natVal [c0] = 2 then 1900 else 2000) + natVal [c1, c2]) ++ "-" ++
        pyFmtZeroPad 2 (natVal [c3, c4]) ++ "-" ++ pyFmtZeroPad 2 (natVal [c5, c6]) = _
    rw [if_pos h2]
    rfl
  · intro h
    have h3 : natVal [c0] = 3 := h
    show pyFmtZeroPad 4 ((if natVal [c0] = 2 then 1900 else 2000) + natVal [c1, c2]) ++ "-" ++
        pyFmtZeroPad 2 (natVal [c3, c4]) ++ "-" ++ pyFmtZeroPad 2 (natVal [c5, c6]) = _
    rw [if_neg (show ¬natVal [c0] = 2 by rw [h3]; norm_num)]
    rfl
  · intro h
    have hodd : natVal [c12] % 2 = 1 := h
    show (if natVal [c12] % 2 ≠ 0 then "Male" else "Female") = "Male"
    rw [if_pos (show natVal [c12] % 2 ≠ 0 by rw [hodd]; norm_num)]
  · intro h
    have heven : natVal [c12] % 2 = 0 := h
    show (if natVal [c12] % 2 ≠ 0 then "Male" else "Female") = "Female"
    rw [if_neg (show ¬natVal [c12] % 2 ≠ 0 by rw [heven]; norm_num)]

/-- C1 witness: the spec's own end-to-end example id `29001011500015`
decodes to birth date 1990-01-01, governorate Kafr El - Sheikh
(table code 15) and gender Male (gender digit 1, odd). -/
theorem decode_valid_digit_string_witness :
    (decode_egyptian_id "29001011500015").birthDate = "1990-01-01" ∧
    (decode_egyptian_id "29001011500015").governorate = "Kafr El - Sheikh" ∧
    (decode_egyptian_id "29001011500015").gender = "Male" := by
  have h := decode_valid_digit_string "29001011500015" (by decide) (by decide)
  refine ⟨?_, ?_, ?_⟩
  · exact (h.1 (by decide)).trans (by decide)
  · exact h.2.2.1.trans (by decide)
  · exact h.2.2.2.1 (by decide)

/-- C2 counterexample: `"2345678901234A"` is a 14-character string
containing a non-digit character, yet `decode_egyptian_id` does not
return the failure record — position 13 is never passed to `int(...)`,
so the string decodes to a full record. -/
theorem decode_accepts_nondigit_at_position13 :
    ("2345678901234A" : String).data.length = 14 ∧
    'A' ∈ ("2345678901234A" : String).data ∧
    'A'.isDigit = false ∧
    decode_egyptian_id "2345678901234A" ≠ failRecord ∧
    decode_egyptian_id "2345678901234A" = ⟨"1934-56-78", "Unknown", "Female"⟩ := by
  refine ⟨by decide, by decide, by decide, ?_, by decide⟩
  decide

/-- C2 (amended): `decode_egyptian_id` never raises (it is a total
function into records); it returns the failure record exactly when the
input length differs from 14 or one of the five slices it converts with
`int(...)` — positions 0-6 and 12 — fails to parse.  A non-digit
character confined to positions 7-11 or 13 does not cause a failure. -/
theorem decode_failure_characterization (s : String) :
    decode_egyptian_id s = failRecord ↔ (s.data.length ≠ 14 ∨ parseFailure s) :=
  decode_fail_iff s

/-- C9: on every failing input — wrong length (including the empty
string) or a parse error in a converted slice — `decode_egyptian_id`
returns exactly `{Birth Date: "", Governorate: "", Gender: ""}`: the
failure sentinel is the empty string for all three fields, never
`"Unknown"`. -/
theorem decode_failure_sentinel_empty (s : String)
    (h : s.data.length ≠ 14 ∨ parseFailure s) :
    decode_egyptian_id s = ⟨"", "", ""⟩ ∧
    (decode_egyptian_id s).governorate ≠ "Unknown" := by
  have he : decode_egyptian_id s = failRecord := (decode_fail_iff s).mpr h
  refine ⟨he, ?_⟩
  rw [he]
  decide

/-- C9 witness: the empty string fails the length guard and yields the
all-empty record. -/
theorem decode_failure_sentinel_empty_witness :
    decode_egyptian_id "" = ⟨"", "", ""⟩ ∧
    (decode_egyptian_id "").governorate ≠ "Unknown" :=
  decode_failure_sentinel_empty "" (Or.inl (by decide))

/-- C10: two 14-character all-digit strings agreeing at positions 0-8 and
12 decode identically — the serial digits (positions 9-11) and the check
digit (position 13) have no influence on the result. -/
theorem decode_ignores_serial_and_check_digits (s t : String)
    (hslen : s.data.length = 14) (htlen : t.data.length = 14)
    (hsdig : ∀ c ∈ s.data, c.isDigit = true) (htdig : ∀ c ∈ t.data, c.isDigit = true)
    (hagree : ∀ i ∈ ([0, 1, 2, 3, 4, 5, 6, 7, 8, 12] : List Nat),
      s.data.get? i = t.data.get? i) :
    decode_egyptian_id s = decode_egyptian_id t := by
  rcases s with ⟨d⟩
  obtain ⟨c0, c1, c2, c3, c4, c5, c6, c7, c8, c9, c10, c11, c12, c13, rfl⟩ :=
    exists_fourteen_chars d hslen
  rcases t with ⟨e⟩
  obtain ⟨e0, e1, e2, e3, e4, e5, e6, e7, e8, e9, e10, e11, e12, e13, rfl⟩ :=
    exists_fourteen_chars e htlen
  have q0 : some c0 = some e0 := hagree 0 (by decide)
  have q1 : some c1 = some e1 := hagree 1 (by decide)
  have q2 : some c2 = some e2 := hagree 2 (by decide)
  have q3 : some c3 = some e3 := hagree 3 (by decide)
  have q4 : some c4 = some e4 := hagree 4 (by decide)
  have q5 : some c5 = some e5 := hagree 5 (by decide)
  have q6 : some c6 = some e6 := hagree 6 (by decide)
  have q7 : some c7 = some e7 := hagree 7 (by decide)
  have q8 : some c8 = some e8 := hagree 8 (by decide)
  have q12 : some c12 = some e12 := hagree 12 (by decide)
  obtain rfl := Option.some.inj q0
  obtain rfl := Option.some.inj q1
  obtain rfl := Option.some.inj q2
  obtain rfl := Option.some.inj q3
  obtain rfl := Option.some.inj q4
  obtain rfl := Option.some.inj q5
  obtain rfl := Option.some.inj q6
  obtain rfl := Option.some.inj q7
  obtain rfl := Option.some.inj q8
  obtain rfl := Option.some.inj q12
  rw [decode_digits c0 c1 c2 c3 c4 c5 c6 c7 c8 c9 c10 c11 c12 c13 hsdig,
    decode_digits c0 c1 c2 c3 c4 c5 c6 c7 c8 e9 e10 e11 c12 e13 htdig]

/-- C10 witness: two concrete valid ids differing only in the serial
digits and the check digit decode to the same record. -/
theorem decode_ignores_serial_and_check_digits_witness :
    decode_egyptian_id "29001011500015" = decode_egyptian_id "29001011599919" :=
  decode_ignores_serial_and_check_digits "29001011500015" "29001011599919"
    (by decide) (by decide) (by decide) (by decide) (by decide)

/-- C5 counterexample: the static table does not hold 14 real governorate
entries — it holds 27 non-"Foreign" entries, 28 entries in all, so the
claimed 14-plus-Foreign (15 entries) is false. -/
theorem governorate_table_not_fifteen_entries :
    (governorates.filter (fun p => p.2 != "Foreign")).length = 27 ∧
    governorates.length = 28 ∧ governorates.length ≠ 15 := by
  refine ⟨by decide, by decide, by decide⟩

/-- C5 (amended): the static governorate table contains 27 real
governorate entries plus the `"Foreign"` entry (28 in all), and for
every 14-digit input whose two-digit code at positions 7:9 is not a key
of the table, the decoded governorate is `"Unknown"`. -/
theorem governorate_table_and_unknown_fallback :
    governorates.length = 28 ∧
    (governorates.filter (fun p => p.2 != "Foreign")).length = 27 ∧
    ("88", "Foreign") ∈ governorates ∧
    ∀ s : String, s.data.length = 14 → (∀ c ∈ s.data, c.isDigit = true) →
      governorates.find? (fun p => p.1 == pySlice s 7 9) = none →
      (decode_egyptian_id s).governorate = "Unknown" := by
  refine ⟨by decide, by decide, by decide, ?_⟩
  intro s hlen hdig hfind
  rcases s with ⟨d⟩
  obtain ⟨c0, c1, c2, c3, c4, c5, c6, c7, c8, c9, c10, c11, c12, c13, rfl⟩ :=
    exists_fourteen_chars d hlen
  rw [decode_digits c0 c1 c2 c3 c4 c5 c6 c7 c8 c9 c10 c11 c12 c13 hdig]
  have hfind2 : governorates.find? (fun p => p.1 == (⟨[c7, c8]⟩ : String)) = none := hfind
  show lookupGov ⟨[c7, c8]⟩ = "Unknown"
  rw [lookupGov, hfind2]
  rfl

/-- C5 witness: code `"00"` is not in the table, so the corresponding id
decodes to governorate `"Unknown"`. -/
theorem governorate_table_and_unknown_fallback_witness :
    (decode_egyptian_id "29001010000015").governorate = "Unknown" :=
  governorate_table_and_unknown_fallback.2.2.2 "29001010000015"
    (by decide) (by decide) (by decide)

/-- C4: `detect_national_id_digits` concatenates the class labels of the
detections in an order that is a permutation of the input sorted by
ascending `x1`; the out-of-order example with classes 9, 1, 5 at
`x1` positions 50, 10, 30 assembles to `"159"`. -/
theorem digit_assembly_sorted_by_x1 :
    (∀ dets : List (Nat × Int), ∃ ord : List (Nat × Int),
      ord.Perm dets ∧ ord.Sorted (fun a b => a.2 ≤ b.2) ∧
      detect_national_id_digits dets = String.join (ord.map (fun p => toString p.1))) ∧
    detect_national_id_digits [(9, 50), (1, 10), (5, 30)] = "159" := by
  constructor
  · intro dets
    refine ⟨List.insertionSort (fun a b => a.2 ≤ b.2) dets,
      List.perm_insertionSort _ _, ?_, rfl⟩
    haveI ht : IsTotal (Nat × Int) (fun a b => a.2 ≤ b.2) := ⟨fun a b => le_total a.2 b.2⟩
    haveI htr : IsTrans (Nat × Int) (fun a b => a.2 ≤ b.2) :=
      ⟨fun _ _ _ hab hbc => le_trans hab hbc⟩
    exact List.sorted_insertionSort _ _
  · decide

/-- Unfolded form of `expand_bbox_height`, for reasoning about its
components. -/
lemma expand_bbox_height_eq (bbox : Bbox) (scale : ℚ) (image_shape : Int × Int) :
    expand_bbox_height bbox scale image_shape =
      ⟨bbox.x1,
        max (bbox.y1 + (bbox.y2 - bbox.y1).fdiv 2 -
          (pyIntTrunc (((bbox.y2 - bbox.y1 : Int) : ℚ) * scale)).fdiv 2) 0,
        bbox.x2,
        min (bbox.y1 + (bbox.y2 - bbox.y1).fdiv 2 +
          (pyIntTrunc (((bbox.y2 - bbox.y1 : Int) : ℚ) * scale)).fdiv 2) image_shape.1⟩ := rfl

/-- C6 counterexample: on the spec's own instance — box `[10,5,50,15]`,
scale 2, image height 20 — the expanded box is `[10,0,50,20]`, whose
`y2 = 20` lies outside the claimed half-open interval `[0, 20)`: the
code clamps to the closed bound `image_height`, not below it. -/
theorem expand_bbox_height_reaches_image_height :
    expand_bbox_height ⟨10, 5, 50, 15⟩ 2 (20, 100) = ⟨10, 0, 50, 20⟩ ∧
    ¬((expand_bbox_height ⟨10, 5, 50, 15⟩ 2 (20, 100)).y2 < 20) := by
  have hq : ((((⟨10, 5, 50, 15⟩ : Bbox).y2 - (⟨10, 5, 50, 15⟩ : Bbox).y1 : Int) : ℚ) * 2) =
      (20 : ℚ) := by norm_num
  have htr : pyIntTrunc ((((⟨10, 5, 50, 15⟩ : Bbox).y2 -
      (⟨10, 5, 50, 15⟩ : Bbox).y1 : Int) : ℚ) * 2) = 20 := by
    rw [pyIntTrunc, hq]; decide
  have heval : expand_bbox_height ⟨10, 5, 50, 15⟩ 2 (20, 100) = ⟨10, 0, 50, 20⟩ := by
    rw [expand_bbox_height_eq, htr]; decide
  exact ⟨heval, by rw [heval]; decide⟩

/-- C6 (amended): for every box lying inside the image vertically and
every nonnegative scale, `expand_bbox_height` leaves the horizontal
extent unchanged and clamps both new y-coordinates to the closed
interval `[0, image_height]` (the upper bound is attainable, as the
counterexample shows; `y2 = image_height` is the exclusive end of a
Python slice, so downstream cropping still cannot fail). -/
theorem expand_bbox_height_clamped (bbox : Bbox) (scale : ℚ) (image_shape : Int × Int)
    (hy1 : 0 ≤ bbox.y1) (hy12 : bbox.y1 ≤ bbox.y2) (hy2 : bbox.y2 ≤ image_shape.1)
    (hscale : 0 ≤ scale) :
    (expand_bbox_height bbox scale image_shape).x1 = bbox.x1 ∧
    (expand_bbox_height bbox scale image_shape).x2 = bbox.x2 ∧
    0 ≤ (expand_bbox_height bbox scale image_shape).y1 ∧
    (expand_bbox_height bbox scale image_shape).y1 ≤ image_shape.1 ∧
    0 ≤ (expand_bbox_height bbox scale image_shape).y2 ∧
    (expand_bbox_height bbox scale image_shape).y2 ≤ image_shape.1 := by
  have hheight : (0 : Int) ≤ bbox.y2 - bbox.y1 := by omega
  have hq : (0 : ℚ) ≤ ((bbox.y2 - bbox.y1 : Int) : ℚ) * scale :=
    mul_nonneg (by exact_mod_cast hheight) hscale
  have hnum : (0 : Int) ≤ (((bbox.y2 - bbox.y1 : Int) : ℚ) * scale).num :=
    Rat.num_nonneg.mpr hq
  have hnh : (0 : Int) ≤ pyIntTrunc (((bbox.y2 - bbox.y1 : Int) : ℚ) * scale) :=
    Int.tdiv_nonneg hnum (by exact_mod_cast Nat.zero_le _)
  have hk : (0 : Int) ≤ (pyIntTrunc (((bbox.y2 - bbox.y1 : Int) : ℚ) * scale)).fdiv 2 :=
    Int.fdiv_nonneg hnh (by norm_num)
  have hmid0 : (0 : Int) ≤ (bbox.y2 - bbox.y1).fdiv 2 := Int.fdiv_nonneg hheight (by norm_num)
  have hmid1 : (bbox.y2 - bbox.y1).fdiv 2 ≤ bbox.y2 - bbox.y1 := by
    rw [Int.fdiv_eq_ediv _ (by norm_num : (0 : Int) ≤ 2)]
    omega
  rw [expand_bbox_height_eq]
  refine ⟨rfl, rfl, le_max_right _ 0, max_le (by omega) (by omega), le_min (by omega) (by omega),
    min_le_right _ _⟩

/-- C6 witness: the amended theorem applied to the spec's instance — box
`[10,5,50,15]`, scale 2, image bounds `(20,100)` — keeps the horizontal
extent and both y-coordinates inside `[0, 20]`. -/
theorem expand_bbox_height_clamped_witness :
    (expand_bbox_height ⟨10, 5, 50, 15⟩ 2 (20, 100)).x1 = 10 ∧
    (expand_bbox_height ⟨10, 5, 50, 15⟩ 2 (20, 100)).x2 = 50 ∧
    0 ≤ (expand_bbox_height ⟨10, 5, 50, 15⟩ 2 (20, 100)).y1 ∧
    (expand_bbox_height ⟨10, 5, 50, 15⟩ 2 (20, 100)).y1 ≤ 20 ∧
    0 ≤ (expand_bbox_height ⟨10, 5, 50, 15⟩ 2 (20, 100)).y2 ∧
    (expand_bbox_height ⟨10, 5, 50, 15⟩ 2 (20, 100)).y2 ≤ 20 :=
  expand_bbox_height_clamped ⟨10, 5, 50, 15⟩ 2 (20, 100)
    (by decide) (by decide) (by decide) zero_le_two

lemma maxCardBox_cons (b x : Bbox) (xs : List Bbox) :
    maxCardBox b (x :: xs) = maxCardBox (if area b < area x then x else b) xs := rfl

lemma maxCardBox_mem : ∀ (rest : List Bbox) (b : Bbox),
    maxCardBox b rest = b ∨ maxCardBox b rest ∈ rest := by
  intro rest
  induction rest with
  | nil => intro b; left; rfl
  | cons x xs ih =>
    intro b
    rw [maxCardBox_cons]
    rcases ih (if area b < area x then x else b) with h | h
    · rw [h]
      by_cases hc : area b < area x
      · rw [if_pos hc]; right; exact List.mem_cons_self x xs
      · rw [if_neg hc]; left; rfl
    · right; exact List.mem_cons_of_mem x h

lemma maxCardBox_area_le : ∀ (rest : List Bbox) (b : Bbox),
    area b ≤ area (maxCardBox b rest) ∧
    ∀ c ∈ rest, area c ≤ area (maxCardBox b rest) := by
  intro rest
  induction rest with
  | nil => intro b; exact ⟨le_refl _, by simp⟩
  | cons x xs ih =>
    intro b
    rw [maxCardBox_cons]
    obtain ⟨h1, h2⟩ := ih (if area b < area x then x else b)
    have hbase : area b ≤ area (if area b < area x then x else b) := by
      by_cases hc : area b < area x
      · rw [if_pos hc]; exact le_of_lt hc
      · rw [if_neg hc]
    have hx : area x ≤ area (if area b < area x then x else b) := by
      by_cases hc : area b < area x
      · rw [if_pos hc]
      · rw [if_neg hc]; omega
    refine ⟨le_trans hbase h1, ?_⟩
    intro c hc
    rcases List.mem_cons.mp hc with rfl | hmem
    · exact le_trans hx h1
    · exact h2 c hmem

/-- C8: the card locator selects a box from the candidates whose area is
maximal (`max(..., key=area)` keeps the first strictly-largest box); in
particular, a 100-area box next to a 400-area box loses to the latter. -/
theorem card_locator_selects_largest_area (b : Bbox) (rest : List Bbox) :
    (maxCardBox b rest = b ∨ maxCardBox b rest ∈ rest) ∧
    (∀ c, c = b ∨ c ∈ rest → area c ≤ area (maxCardBox b rest)) ∧
    maxCardBox ⟨0, 0, 10, 10⟩ [⟨20, 0, 40, 20⟩] = ⟨20, 0, 40, 20⟩ := by
  refine ⟨maxCardBox_mem rest b, ?_, by decide⟩
  intro c hc
  rcases hc with rfl | hmem
  · exact (maxCardBox_area_le rest c).1
  · exact (maxCardBox_area_le rest b).2 c hmem

/-- C8 witness: the selected box dominates the 100-area candidate in the
two-box instance. -/
theorem card_locator_selects_largest_area_witness :
    area ⟨0, 0, 10, 10⟩ ≤ area (maxCardBox ⟨0, 0, 10, 10⟩ [⟨20, 0, 40, 20⟩]) :=
  (card_locator_selects_largest_area ⟨0, 0, 10, 10⟩ [⟨20, 0, 40, 20⟩]).2.1
    ⟨0, 0, 10, 10⟩ (Or.inl rfl)

/-- C3: `detect_and_process_id_card` always returns the 8-field record:
with no card boxes the record is all-empty, and when the assembled digit
string fails to decode the name and address fields already extracted are
still returned, only the birth-date/governorate/gender triple being
empty. -/
theorem pipeline_partial_results (env : PipelineEnv) :
    (env.card_boxes = [] → detect_and_process_id_card env = emptyExtraction) ∧
    (∀ b rest, env.imread_ok = true → env.card_boxes = b :: rest →
      ∀ fr, fr = process_fields env
          ((maxCardBox b rest).y2 - (maxCardBox b rest).y1,
            (maxCardBox b rest).x2 - (maxCardBox b rest).x1) →
      decode_egyptian_id fr.nid = failRecord →
      detect_and_process_id_card env =
        ⟨fr.first_name, fr.second_name, fr.full_name, fr.nid, fr.address, "", "", ""⟩) := by
  obtain ⟨ok, boxes, dets, rt, dd⟩ := env
  constructor
  · intro hb
    have hb2 : boxes = [] := hb
    subst hb2
    cases ok <;> rfl
  · intro b rest hok hbx fr hfr hdec
    have hok2 : ok = true := hok
    have hbx2 : boxes = b :: rest := hbx
    subst hok2 hbx2
    subst hfr
    unfold detect_and_process_id_card
    dsimp only
    rw [hdec]
    rfl

/-- C3 witness: with no card boxes the result is all-empty; with a card
box, fields yielding name "Ali" and address "Cairo" and a digit string of
only three digits, the name and address survive and the demographic
triple is empty. -/
theorem pipeline_partial_results_witness :
    detect_and_process_id_card ⟨true, [], [], fun _ => "", fun _ => []⟩ = emptyExtraction ∧
    detect_and_process_id_card
        ⟨true, [⟨0, 0, 10, 10⟩],
          [⟨"firstName", ⟨0, 0, 2, 2⟩⟩, ⟨"address", ⟨0, 3, 2, 5⟩⟩, ⟨"nid", ⟨0, 6, 9, 8⟩⟩],
          fun bb => if bb.y1 = 0 then "Ali" else "Cairo",
          fun _ => [(1, 10), (5, 30), (9, 50)]⟩ =
      ⟨"Ali", "", "Ali", "159", "Cairo", "", "", ""⟩ := by
  constructor
  · exact (pipeline_partial_results _).1 rfl
  · have h := (pipeline_partial_results
      ⟨true, [⟨0, 0, 10, 10⟩],
        [⟨"firstName", ⟨0, 0, 2, 2⟩⟩, ⟨"address", ⟨0, 3, 2, 5⟩⟩, ⟨"nid", ⟨0, 6, 9, 8⟩⟩],
        fun bb => if bb.y1 = 0 then "Ali" else "Cairo",
        fun _ => [(1, 10), (5, 30), (9, 50)]⟩).2
      ⟨0, 0, 10, 10⟩ [] rfl rfl _ rfl (by decide)
    exact h.trans (by decide)

/-- C7 (amended): when `cv2.imread` cannot read the image,
`detect_and_process_id_card` returns the all-empty 8-field record — the
condition is absorbed exactly like the other failures, and no error
reaches the caller. -/
theorem unreadable_image_returns_empty_record (env : PipelineEnv)
    (h : env.imread_ok = false) :
    detect_and_process_id_card env = emptyExtraction := by
  obtain ⟨ok, boxes, dets, rt, dd⟩ := env
  have h2 : ok = false := h
  subst h2
  rfl

/-- C7 witness: a concrete unreadable-image environment yields the
all-empty record. -/
theorem unreadable_image_returns_empty_record_witness :
    detect_and_process_id_card ⟨false, [], [], fun _ => "", fun _ => []⟩ = emptyExtraction :=
  unreadable_image_returns_empty_record ⟨false, [], [], fun _ => "", fun _ => []⟩ rfl

/-- C7 counterexample: an unreadable image does not surface as an error
distinct from the absorbed failures — even with card boxes and field
detections available, the function returns the same all-empty record it
returns for card-not-found, contradicting the claim that this condition
propagates as a hard error rather than being absorbed into empty
fields. -/
theorem unreadable_image_not_an_error :
    detect_and_process_id_card
        ⟨false, [⟨0, 0, 10, 10⟩], [⟨"firstName", ⟨0, 0, 2, 2⟩⟩],
          fun _ => "Ali", fun _ => [(1, 10)]⟩ = emptyExtraction := rfl

